import Mathlib

/-!
Verification of the Mental Omega modding-guide voxel toolchain.

This file gives a shallow embedding, in Lean 4, of the core algorithms of the
repository's VXL voxel codec scripts and proves or refutes the specified
properties about them.  Each definition is translated directly from the named
Python source function; machine bytes are modelled as `Nat` values below 256,
Python `int` arithmetic as `Nat`/`Int` arithmetic, Python `float` arithmetic as
exact real (`ℝ`) or rational (`ℚ`) arithmetic, and the IEEE-754 serialization
of `struct.pack('<f', …)` is abstracted as a given 4-byte block parameter,
since no settled property depends on the float payload bytes.
-/

namespace VxlGuide

/-! ## Palette / color mapper

`map_color_to_ra2` from `scripts/vox_to_vxl.py`, lines 132-146. -/

/-- Embeds `map_color_to_ra2(color_index, vox_palette)`: the palette argument is never
used by the source body, so it is dropped here. -/
def map_color_to_ra2 (color_index : Nat) : Nat :=
  if color_index = 0 then 0
  else if 16 ≤ color_index ∧ color_index ≤ 31 then color_index + 32
  else color_index

/-! ## Coarse normal classifiers

`calculate_normal_index` from `scripts/vox_to_vxl.py` lines 110-129 (grid of
color bytes, `0` = empty) and `calculate_normals_index` from
`scripts/obj_to_vxl.py` lines 157-177 (grid of booleans).  Both first compute
the six-entry exposure list and then run the same fixed if-chain. -/

/-- The final if-chain shared by both coarse classifiers (lines 123-129 of
`vox_to_vxl.py`, lines 171-177 of `obj_to_vxl.py`): `exposed` order is
`+X, -X, +Y, -Y, +Z(top), -Z(bottom)` as in the source lists. -/
def coarsePick (e0 e1 e2 e3 e4 e5 : Bool) : Nat :=
  if e4 then 0
  else if e5 then 12
  else if e0 then 6
  else if e1 then 18
  else if e2 then 3
  else if e3 then 21
  else 0

/-- Exposure tests of `calculate_normal_index` (`vox_to_vxl.py` lines 115-120);
a neighbor with color `0` or out of bounds exposes the face. -/
def exposedVox (grid : Nat → Nat → Nat → Nat) (dim_x dim_y dim_z x y z : Nat) :
    Bool × Bool × Bool × Bool × Bool × Bool :=
  (decide (x ≥ dim_x - 1) || decide (grid (x+1) y z = 0),
   decide (x ≤ 0) || decide (grid (x-1) y z = 0),
   decide (y ≥ dim_y - 1) || decide (grid x (y+1) z = 0),
   decide (y ≤ 0) || decide (grid x (y-1) z = 0),
   decide (z ≥ dim_z - 1) || decide (grid x y (z+1) = 0),
   decide (z ≤ 0) || decide (grid x y (z-1) = 0))

/-- Embeds `calculate_normal_index(x, y, z, grid, dim_x, dim_y, dim_z)` from
`scripts/vox_to_vxl.py` lines 110-129. -/
def calculate_normal_index (x y z : Nat) (grid : Nat → Nat → Nat → Nat)
    (dim_x dim_y dim_z : Nat) : Nat :=
  match exposedVox grid dim_x dim_y dim_z x y z with
  | (e0, e1, e2, e3, e4, e5) => coarsePick e0 e1 e2 e3 e4 e5

/-- Exposure tests of `calculate_normals_index` (`obj_to_vxl.py` lines
162-167); the grid is boolean and cubic with extent `size`. -/
def exposedObj (voxel_grid : Nat → Nat → Nat → Bool) (size x y z : Nat) :
    Bool × Bool × Bool × Bool × Bool × Bool :=
  (decide (x ≥ size - 1) || !voxel_grid (x+1) y z,
   decide (x ≤ 0) || !voxel_grid (x-1) y z,
   decide (y ≥ size - 1) || !voxel_grid x (y+1) z,
   decide (y ≤ 0) || !voxel_grid x (y-1) z,
   decide (z ≥ size - 1) || !voxel_grid x y (z+1),
   decide (z ≤ 0) || !voxel_grid x y (z-1))

/-- Embeds `calculate_normals_index(x, y, z, voxel_grid, size)` from
`scripts/obj_to_vxl.py` lines 157-177. -/
def calculate_normals_index (x y z : Nat) (voxel_grid : Nat → Nat → Nat → Bool)
    (size : Nat) : Nat :=
  match exposedObj voxel_grid size x y z with
  | (e0, e1, e2, e3, e4, e5) => coarsePick e0 e1 e2 e3 e4 e5

/-- Specification-side face catalogue: the deterministic priority order
`top > bottom > +X > -X > +Y > -Y` paired with the fixed historical indices
`{top:0, bottom:12, +X:6, -X:18, +Y:3, -Y:21}`.  Each entry carries the
position of that face in the source's `exposed` list. -/
def coarsePriority : List (Nat × Nat) :=
  [(4, 0), (5, 12), (0, 6), (1, 18), (2, 3), (3, 21)]

/-- The highest-priority exposed face's fixed index, as the spec describes it:
the first entry of `coarsePriority` whose face is exposed. -/
def firstExposedIndex (e : Nat → Bool) : Option Nat :=
  (coarsePriority.find? (fun p => e p.1)).map (·.2)

/-- Read one of the six exposure booleans out of the tuple. -/
def exposureAt (t : Bool × Bool × Bool × Bool × Bool × Bool) : Nat → Bool
  | 0 => t.1
  | 1 => t.2.1
  | 2 => t.2.2.1
  | 3 => t.2.2.2.1
  | 4 => t.2.2.2.2.1
  | 5 => t.2.2.2.2.2
  | _ => false

lemma coarsePick_eq_firstExposedIndex
    (e0 e1 e2 e3 e4 e5 : Bool)
    (h : e0 || e1 || e2 || e3 || e4 || e5) :
    some (coarsePick e0 e1 e2 e3 e4 e5) =
      firstExposedIndex (exposureAt (e0, e1, e2, e3, e4, e5)) := by
  revert h
  cases e0 <;> cases e1 <;> cases e2 <;> cases e3 <;> cases e4 <;> cases e5 <;>
    decide

lemma exists_exposure_or (t : Bool × Bool × Bool × Bool × Bool × Bool)
    (h : ∃ i, i < 6 ∧ exposureAt t i = true) :
    t.1 || t.2.1 || t.2.2.1 || t.2.2.2.1 || t.2.2.2.2.1 || t.2.2.2.2.2 := by
  obtain ⟨i, hi, he⟩ := h
  obtain ⟨e0, e1, e2, e3, e4, e5⟩ := t
  interval_cases i <;> simp_all [exposureAt]

/-- C6: whenever an occupied cell has at least one exposed face, both coarse
classifiers (`calculate_normal_index` in `vox_to_vxl.py` and
`calculate_normals_index` in `obj_to_vxl.py`) return the fixed index of the
highest-priority exposed face under the order
top > bottom > +X > -X > +Y > -Y with indices top=0, bottom=12, +X=6, -X=18,
+Y=3, -Y=21; in particular a cell exposed on top (and possibly also on +X)
always yields index 0. -/
theorem coarse_classifier_priority
    (grid : Nat → Nat → Nat → Nat) (bgrid : Nat → Nat → Nat → Bool)
    (dim_x dim_y dim_z size x y z : Nat)
    (hocc : grid x y z ≠ 0) (hbocc : bgrid x y z = true)
    (hexp : ∃ i, i < 6 ∧
      exposureAt (exposedVox grid dim_x dim_y dim_z x y z) i = true)
    (hbexp : ∃ i, i < 6 ∧ exposureAt (exposedObj bgrid size x y z) i = true) :
    some (calculate_normal_index x y z grid dim_x dim_y dim_z) =
        firstExposedIndex (exposureAt (exposedVox grid dim_x dim_y dim_z x y z))
    ∧ some (calculate_normals_index x y z bgrid size) =
        firstExposedIndex (exposureAt (exposedObj bgrid size x y z))
    ∧ (exposureAt (exposedVox grid dim_x dim_y dim_z x y z) 4 = true →
        calculate_normal_index x y z grid dim_x dim_y dim_z = 0)
    ∧ (exposureAt (exposedObj bgrid size x y z) 4 = true →
        calculate_normals_index x y z bgrid size = 0) := by
  have hv := exists_exposure_or _ hexp
  have hb := exists_exposure_or _ hbexp
  refine ⟨?_, ?_, ?_, ?_⟩
  · unfold calculate_normal_index
    generalize hE : exposedVox grid dim_x dim_y dim_z x y z = E at hv ⊢
    obtain ⟨e0, e1, e2, e3, e4, e5⟩ := E
    exact coarsePick_eq_firstExposedIndex e0 e1 e2 e3 e4 e5 (by simpa using hv)
  · unfold calculate_normals_index
    generalize hE : exposedObj bgrid size x y z = E at hb ⊢
    obtain ⟨e0, e1, e2, e3, e4, e5⟩ := E
    exact coarsePick_eq_firstExposedIndex e0 e1 e2 e3 e4 e5 (by simpa using hb)
  · unfold calculate_normal_index
    generalize hE : exposedVox grid dim_x dim_y dim_z x y z = E
    obtain ⟨e0, e1, e2, e3, e4, e5⟩ := E
    intro h4
    simp only [exposureAt] at h4
    simp [coarsePick, h4]
  · unfold calculate_normals_index
    generalize hE : exposedObj bgrid size x y z = E
    obtain ⟨e0, e1, e2, e3, e4, e5⟩ := E
    intro h4
    simp only [exposureAt] at h4
    simp [coarsePick, h4]

/-- Witness for `coarse_classifier_priority`: a single voxel occupying the
whole of a 1×1×1 grid is exposed on every face; both classifiers pick the
top index 0. -/
theorem coarse_classifier_priority_witness :
    some (calculate_normal_index 0 0 0 (fun _ _ _ => 7) 1 1 1) =
      firstExposedIndex
        (exposureAt (exposedVox (fun _ _ _ => 7) 1 1 1 0 0 0)) ∧
    calculate_normals_index 0 0 0 (fun _ _ _ => true) 1 = 0 := by
  have h := coarse_classifier_priority (fun _ _ _ => 7) (fun _ _ _ => true)
    1 1 1 1 0 0 0 (by decide) (by decide)
    ⟨0, by decide, by decide⟩ ⟨0, by decide, by decide⟩
  exact ⟨h.1, h.2.2.2 (by decide)⟩

/-- C8: the color mapper never assigns an index in the reserved team-color
range [16,31]; indices inside the range are shifted out of it (by +32) and
every other index is returned unchanged. -/
theorem map_color_avoids_remap_range (color_index : Nat) :
    ¬(16 ≤ map_color_to_ra2 color_index ∧ map_color_to_ra2 color_index ≤ 31)
    ∧ (¬(16 ≤ color_index ∧ color_index ≤ 31) →
        map_color_to_ra2 color_index = color_index)
    ∧ (16 ≤ color_index ∧ color_index ≤ 31 →
        map_color_to_ra2 color_index = color_index + 32) := by
  unfold map_color_to_ra2
  split <;> rename_i h1
  · subst h1; omega
  · split <;> rename_i h2 <;> omega

/-- Witness for `map_color_avoids_remap_range` at the in-range input 16 and
the out-of-range input 100. -/
theorem map_color_avoids_remap_range_witness :
    map_color_to_ra2 16 = 48 ∧ map_color_to_ra2 100 = 100 := by
  refine ⟨?_, ?_⟩
  · have h := (map_color_avoids_remap_range 16).2.2 (by decide)
    simpa using h
  · exact (map_color_avoids_remap_range 100).2.1 (by decide)

/-! ## Span encoders

The per-column span loops of `create_vxl_from_grid` (`vox_to_vxl.py` lines
172-211, relative skip counts) and of `create_vxl` (`obj_to_vxl.py` lines
233-272, absolute skip counts).  The Python `while` loops advancing `z` are
embedded as recursion on `dim_z - z`. -/

/-- One inner `while z < dim_z and p(z): z += 1` loop: returns the final `z`. -/
def skipWhile (p : Nat → Bool) (dim_z z : Nat) : Nat :=
  if h : z < dim_z ∧ p z then skipWhile p dim_z (z + 1) else z
termination_by dim_z - z
decreasing_by omega

lemma le_skipWhile (p : Nat → Bool) (dim_z z : Nat) : z ≤ skipWhile p dim_z z := by
  rw [skipWhile]
  split
  · have := le_skipWhile p dim_z (z + 1)
    omega
  · exact le_rfl
termination_by dim_z - z
decreasing_by omega

lemma skipWhile_le (p : Nat → Bool) (dim_z z : Nat) (h : z ≤ dim_z) :
    skipWhile p dim_z z ≤ dim_z := by
  rw [skipWhile]
  split
  · exact skipWhile_le p dim_z (z + 1) (by omega)
  · exact h
termination_by dim_z - z
decreasing_by omega

lemma lt_skipWhile_of_pos (p : Nat → Bool) (dim_z z : Nat)
    (hz : z < dim_z) (hp : p z = true) : z < skipWhile p dim_z z := by
  rw [skipWhile]
  rw [dif_pos ⟨hz, hp⟩]
  have := le_skipWhile p dim_z (z + 1)
  omega

lemma skipWhile_stop (p : Nat → Bool) (dim_z z : Nat)
    (h : skipWhile p dim_z z < dim_z) : p (skipWhile p dim_z z) = false := by
  by_cases hc : z < dim_z ∧ p z = true
  · rw [skipWhile, dif_pos hc] at h ⊢
    exact skipWhile_stop p dim_z (z + 1) h
  · rw [skipWhile, dif_neg hc] at h ⊢
    by_contra hb
    exact hc ⟨h, by simpa using hb⟩
termination_by dim_z - z
decreasing_by omega

/-- The bytes of one span: skip byte, count byte, `count` payload cell byte
pairs for heights `[start, stop)`, then the duplicate count byte. -/
def spanBytes (skip start stop : Nat) (payload : Nat → List Nat) : List Nat :=
  [skip, stop - start] ++ (List.range' start (stop - start)).flatMap payload
    ++ [stop - start]

/-- The span-emission loop of `create_vxl_from_grid` (`vox_to_vxl.py` lines
173-211) for the column at `(x, y)`: state `z` (current height) and
`last_span_end_z`; the skip byte is `z - last_span_end_z` (RELATIVE to the end
of the previous span, line 184), the cell payload is
`map_color_to_ra2(grid[x][y][vz])` and
`calculate_normal_index(x, y, vz, …)` (lines 199-200), each span ends with a
duplicate count byte (line 206), and the column ends with the terminator
`(dim_z - last_span_end_z, 0)` (lines 209-211). -/
def create_vxl_from_grid_spans (grid : Nat → Nat → Nat → Nat)
    (dim_x dim_y dim_z x y z last : Nat) : List Nat :=
  if _h : z < dim_z then
    if h1 : skipWhile (fun w => grid x y w == 0) dim_z z < dim_z then
      spanBytes (skipWhile (fun w => grid x y w == 0) dim_z z - last)
        (skipWhile (fun w => grid x y w == 0) dim_z z)
        (skipWhile (fun w => !(grid x y w == 0)) dim_z
          (skipWhile (fun w => grid x y w == 0) dim_z z))
        (fun vz => [map_color_to_ra2 (grid x y vz),
                    calculate_normal_index x y vz grid dim_x dim_y dim_z])
        ++ create_vxl_from_grid_spans grid dim_x dim_y dim_z x y
            (skipWhile (fun w => !(grid x y w == 0)) dim_z
              (skipWhile (fun w => grid x y w == 0) dim_z z))
            (skipWhile (fun w => !(grid x y w == 0)) dim_z
              (skipWhile (fun w => grid x y w == 0) dim_z z))
    else [dim_z - last, 0]
  else [dim_z - last, 0]
termination_by dim_z - z
decreasing_by
  have ha : z ≤ skipWhile (fun w => grid x y w == 0) dim_z z :=
    le_skipWhile _ dim_z z
  have hb := lt_skipWhile_of_pos (fun w => !(grid x y w == 0)) dim_z
    (skipWhile (fun w => grid x y w == 0) dim_z z) h1
    (by simpa using skipWhile_stop (fun w => grid x y w == 0) dim_z z h1)
  omega

/-- The span-emission loop of `create_vxl` (`obj_to_vxl.py` lines 234-272) for
the cropped column at `(src_x, src_y)`: the skip byte is the ABSOLUTE `z`
position where the span starts (line 245), the payload is the constant color
100 with `calculate_normals_index(src_x, src_y, vz + actual_min_z, …,
max(size_x, size_y, size_z))` (lines 258-262), and the terminator byte is
`dim_z - z if z < dim_z else 0`, which is always 0 because the loop only exits
with `z ≥ dim_z` (line 270). -/
def create_vxl_spans_obj (voxel_grid : Nat → Nat → Nat → Bool)
    (size src_x src_y min_z dim_z z : Nat) : List Nat :=
  if _h : z < dim_z then
    if h1 : skipWhile (fun w => !voxel_grid src_x src_y (w + min_z)) dim_z z
        < dim_z then
      spanBytes
        (skipWhile (fun w => !voxel_grid src_x src_y (w + min_z)) dim_z z)
        (skipWhile (fun w => !voxel_grid src_x src_y (w + min_z)) dim_z z)
        (skipWhile (fun w => voxel_grid src_x src_y (w + min_z)) dim_z
          (skipWhile (fun w => !voxel_grid src_x src_y (w + min_z)) dim_z z))
        (fun vz => [100, calculate_normals_index src_x src_y (vz + min_z)
                      voxel_grid size])
        ++ create_vxl_spans_obj voxel_grid size src_x src_y min_z dim_z
            (skipWhile (fun w => voxel_grid src_x src_y (w + min_z)) dim_z
              (skipWhile (fun w => !voxel_grid src_x src_y (w + min_z)) dim_z z))
    else [0, 0]
  else [0, 0]
termination_by dim_z - z
decreasing_by
  have ha : z ≤ skipWhile (fun w => !voxel_grid src_x src_y (w + min_z)) dim_z z :=
    le_skipWhile _ dim_z z
  have hb := lt_skipWhile_of_pos (fun w => voxel_grid src_x src_y (w + min_z)) dim_z
    (skipWhile (fun w => !voxel_grid src_x src_y (w + min_z)) dim_z z) h1
    (by simpa using
      skipWhile_stop (fun w => !voxel_grid src_x src_y (w + min_z)) dim_z z h1)
  omega

/-! ## Abstract run decomposition

Specification-side view of a column: the list of its maximal occupied runs as
`(start, end)` pairs (`end` exclusive), and the two renderings of those runs as
span bytes — one with skip bytes relative to the previous span's end (the
interpretation the spec adopts as canonical), one with absolute start
positions. -/

/-- Maximal occupied runs of a column from height `z` upward; `emptyAt w` tells
whether cell `w` is empty. -/
def runsFrom (emptyAt : Nat → Bool) (dim_z z : Nat) : List (Nat × Nat) :=
  if _h : z < dim_z then
    if h1 : skipWhile emptyAt dim_z z < dim_z then
      (skipWhile emptyAt dim_z z,
        skipWhile (fun w => !emptyAt w) dim_z (skipWhile emptyAt dim_z z))
        :: runsFrom emptyAt dim_z
            (skipWhile (fun w => !emptyAt w) dim_z (skipWhile emptyAt dim_z z))
    else []
  else []
termination_by dim_z - z
decreasing_by
  have ha : z ≤ skipWhile emptyAt dim_z z := le_skipWhile _ dim_z z
  have hb := lt_skipWhile_of_pos (fun w => !emptyAt w) dim_z
    (skipWhile emptyAt dim_z z) h1
    (by simpa using skipWhile_stop emptyAt dim_z z h1)
  omega

/-- Render runs as spans whose skip byte is the gap since the end of the
previous span (`last`), followed by the terminator
`(dim_z - lastSpanEnd, 0)`. -/
def renderRel (payload : Nat → List Nat) (dim_z : Nat) :
    Nat → List (Nat × Nat) → List Nat
  | last, [] => [dim_z - last, 0]
  | last, (s, e) :: rs =>
      [s - last, e - s] ++ (List.range' s (e - s)).flatMap payload ++ [e - s]
        ++ renderRel payload dim_z e rs

/-- Render runs as spans whose skip byte is the absolute start position of the
run, followed by the terminator `(0, 0)`. -/
def renderAbs (payload : Nat → List Nat) : List (Nat × Nat) → List Nat
  | [] => [0, 0]
  | (s, e) :: rs =>
      [s, e - s] ++ (List.range' s (e - s)).flatMap payload ++ [e - s]
        ++ renderAbs payload rs

lemma create_vxl_from_grid_spans_eq_renderRel
    (grid : Nat → Nat → Nat → Nat) (dim_x dim_y dim_z x y z last : Nat) :
    create_vxl_from_grid_spans grid dim_x dim_y dim_z x y z last =
      renderRel (fun vz => [map_color_to_ra2 (grid x y vz),
                   calculate_normal_index x y vz grid dim_x dim_y dim_z])
        dim_z last (runsFrom (fun w => grid x y w == 0) dim_z z) := by
  have key : ∀ n z last, dim_z - z ≤ n →
      create_vxl_from_grid_spans grid dim_x dim_y dim_z x y z last =
        renderRel (fun vz => [map_color_to_ra2 (grid x y vz),
                     calculate_normal_index x y vz grid dim_x dim_y dim_z])
          dim_z last (runsFrom (fun w => grid x y w == 0) dim_z z) := by
    intro n
    induction n with
    | zero =>
      intro z last hn
      have hz : ¬ z < dim_z := by omega
      rw [create_vxl_from_grid_spans, runsFrom, dif_neg hz, dif_neg hz,
        renderRel]
    | succ n ih =>
      intro z last hn
      by_cases h : z < dim_z
      · rw [create_vxl_from_grid_spans, runsFrom, dif_pos h, dif_pos h]
        by_cases h1 : skipWhile (fun w => grid x y w == 0) dim_z z < dim_z
        · rw [dif_pos h1, dif_pos h1, renderRel]
          have ha : z ≤ skipWhile (fun w => grid x y w == 0) dim_z z :=
            le_skipWhile _ dim_z z
          have hb := lt_skipWhile_of_pos (fun w => !(grid x y w == 0)) dim_z
            (skipWhile (fun w => grid x y w == 0) dim_z z) h1
            (by simpa using
              skipWhile_stop (fun w => grid x y w == 0) dim_z z h1)
          rw [ih _ _ (by omega)]
          simp [spanBytes, List.append_assoc]
        · rw [dif_neg h1, dif_neg h1, renderRel]
      · rw [create_vxl_from_grid_spans, runsFrom, dif_neg h, dif_neg h,
          renderRel]
  exact key (dim_z - z) z last le_rfl

lemma create_vxl_spans_obj_eq_renderAbs
    (voxel_grid : Nat → Nat → Nat → Bool)
    (size src_x src_y min_z dim_z z : Nat) :
    create_vxl_spans_obj voxel_grid size src_x src_y min_z dim_z z =
      renderAbs (fun vz => [100, calculate_normals_index src_x src_y
                   (vz + min_z) voxel_grid size])
        (runsFrom (fun w => !voxel_grid src_x src_y (w + min_z)) dim_z z) := by
  have key : ∀ n z, dim_z - z ≤ n →
      create_vxl_spans_obj voxel_grid size src_x src_y min_z dim_z z =
        renderAbs (fun vz => [100, calculate_normals_index src_x src_y
                     (vz + min_z) voxel_grid size])
          (runsFrom (fun w => !voxel_grid src_x src_y (w + min_z)) dim_z z) := by
    intro n
    induction n with
    | zero =>
      intro z hn
      have hz : ¬ z < dim_z := by omega
      rw [create_vxl_spans_obj, runsFrom, dif_neg hz, dif_neg hz, renderAbs]
    | succ n ih =>
      intro z hn
      by_cases h : z < dim_z
      · rw [create_vxl_spans_obj, runsFrom, dif_pos h, dif_pos h]
        by_cases h1 : skipWhile (fun w => !voxel_grid src_x src_y (w + min_z))
            dim_z z < dim_z
        · rw [dif_pos h1, dif_pos h1, renderAbs]
          have ha : z ≤ skipWhile
              (fun w => !voxel_grid src_x src_y (w + min_z)) dim_z z :=
            le_skipWhile _ dim_z z
          have hstop := skipWhile_stop
            (fun w => !voxel_grid src_x src_y (w + min_z)) dim_z z h1
          have hb := lt_skipWhile_of_pos
            (fun w => voxel_grid src_x src_y (w + min_z)) dim_z
            (skipWhile (fun w => !voxel_grid src_x src_y (w + min_z)) dim_z z)
            h1 (by simpa using hstop)
          rw [ih _ (by omega)]
          simp [spanBytes, List.append_assoc, Bool.not_not]
        · rw [dif_neg h1, dif_neg h1, renderAbs]
      · rw [create_vxl_spans_obj, runsFrom, dif_neg h, dif_neg h, renderAbs]
  exact key (dim_z - z) z le_rfl

/-- C2 (amended): the skip bytes of the two span encoders.  The vox converter
(`create_vxl_from_grid`, `vox_to_vxl.py`) writes every span's skip byte as the
number of empty cells since the end of the previous span (relative; the two
interpretations coincide for a column's first span, whose previous end is 0),
while the OBJ converter (`create_vxl`, `obj_to_vxl.py`; the Blender exporter's
`create_vxl` has the identical span loop) writes the absolute Z coordinate
where the span begins and always terminates with remaining byte 0. -/
theorem span_skip_byte_semantics
    (grid : Nat → Nat → Nat → Nat) (voxel_grid : Nat → Nat → Nat → Bool)
    (dim_x dim_y dim_z size src_x src_y min_z x y : Nat) :
    create_vxl_from_grid_spans grid dim_x dim_y dim_z x y 0 0 =
      renderRel (fun vz => [map_color_to_ra2 (grid x y vz),
                   calculate_normal_index x y vz grid dim_x dim_y dim_z])
        dim_z 0 (runsFrom (fun w => grid x y w == 0) dim_z 0)
    ∧ create_vxl_spans_obj voxel_grid size src_x src_y min_z dim_z 0 =
      renderAbs (fun vz => [100, calculate_normals_index src_x src_y
                   (vz + min_z) voxel_grid size])
        (runsFrom (fun w => !voxel_grid src_x src_y (w + min_z)) dim_z 0) :=
  ⟨create_vxl_from_grid_spans_eq_renderRel grid dim_x dim_y dim_z x y 0 0,
   create_vxl_spans_obj_eq_renderAbs voxel_grid size src_x src_y min_z dim_z 0⟩

/-- A 1×1×3 boolean column occupied at z = 0 and z = 2: two spans. -/
def colTwoRuns : Nat → Nat → Nat → Bool := fun x y z =>
  x == 0 && y == 0 && (z == 0 || z == 2)

/-- Counterexample to C2 as stated: the OBJ converter's span encoder writes
the second span's skip byte as the absolute start coordinate 2, not as the
relative gap 1 that the relative rendering of the same runs would produce. -/
theorem span_skip_byte_relative_counterexample :
    create_vxl_spans_obj colTwoRuns 3 0 0 0 3 0 =
      [0, 1, 100, 0, 1, 2, 1, 100, 0, 1, 0, 0]
    ∧ renderRel (fun vz => [100, calculate_normals_index 0 0 (vz + 0)
                   colTwoRuns 3]) 3 0
        (runsFrom (fun w => !colTwoRuns 0 0 (w + 0)) 3 0) =
      [0, 1, 100, 0, 1, 1, 1, 100, 0, 1, 0, 0] := by
  constructor <;>
    simp [create_vxl_spans_obj, runsFrom, renderRel, skipWhile, spanBytes,
      colTwoRuns, calculate_normals_index, exposedObj, coarsePick,
      List.range']

/-! ## Column coverage (C4)

`spanSum` reads an encoded column back: it adds up `skip + count` over the
spans and finally the terminator's remaining byte, returning `none` when the
bytes are not a well-formed span sequence.  This is the spec's "sum of all
spans' skip+count plus the final terminator's remaining". -/

/-- Fuel-indexed span-sequence reader. -/
def spanSumF : Nat → List Nat → Option Nat
  | fuel + 1, s :: c :: rest =>
      if rest = [] then (if c = 0 then some s else none)
      else if c = 0 then none
      else
        match rest.drop (2 * c) with
        | [] => none
        | c' :: rest' =>
          if c' = c ∧ (rest.take (2 * c)).length = 2 * c then
            (spanSumF fuel rest').map (fun t => s + c + t)
          else none
  | _ + 1, _ => none
  | 0, _ => none

/-- Sum of `skip + count` over an encoded column's spans plus the terminator's
remaining byte. -/
def spanSum (l : List Nat) : Option Nat := spanSumF l.length l

/-- Well-formed run lists: starts chain upward from `z` and ends stay within
`dim_z`. -/
def RunsWF (dim_z : Nat) : Nat → List (Nat × Nat) → Prop
  | _, [] => True
  | z, (s, e) :: rs => z ≤ s ∧ s < e ∧ e ≤ dim_z ∧ RunsWF dim_z e rs

lemma runsFrom_wf (emptyAt : Nat → Bool) (dim_z : Nat) :
    ∀ z, z ≤ dim_z → RunsWF dim_z z (runsFrom emptyAt dim_z z) := by
  have key : ∀ n z, dim_z - z ≤ n → z ≤ dim_z →
      RunsWF dim_z z (runsFrom emptyAt dim_z z) := by
    intro n
    induction n with
    | zero =>
      intro z hn _
      have hz : ¬ z < dim_z := by omega
      rw [runsFrom, dif_neg hz]
      trivial
    | succ n ih =>
      intro z hn hzd
      by_cases h : z < dim_z
      · rw [runsFrom, dif_pos h]
        by_cases h1 : skipWhile emptyAt dim_z z < dim_z
        · rw [dif_pos h1]
          have ha : z ≤ skipWhile emptyAt dim_z z := le_skipWhile _ dim_z z
          have hstop := skipWhile_stop emptyAt dim_z z h1
          have hb := lt_skipWhile_of_pos (fun w => !emptyAt w) dim_z
            (skipWhile emptyAt dim_z z) h1 (by simpa using hstop)
          have hc : skipWhile (fun w => !emptyAt w) dim_z
              (skipWhile emptyAt dim_z z) ≤ dim_z :=
            skipWhile_le _ dim_z _ (by omega)
          exact ⟨ha, hb, hc, ih _ (by omega) hc⟩
        · rw [dif_neg h1]
          trivial
      · rw [runsFrom, dif_neg h]
        trivial
  intro z
  exact key (dim_z - z) z le_rfl

lemma length_flatMap_two (payload : Nat → List Nat)
    (hp : ∀ vz, (payload vz).length = 2) :
    ∀ n s, ((List.range' s n).flatMap payload).length = 2 * n := by
  intro n
  induction n with
  | zero => intro s; simp
  | succ n ih =>
    intro s
    rw [List.range'_succ]
    simp only [List.flatMap_cons, List.length_append, hp, ih]
    omega

lemma spanSumF_renderRel (payload : Nat → List Nat)
    (hp : ∀ vz, (payload vz).length = 2) (dim_z : Nat) :
    ∀ runs z last fuel, RunsWF dim_z z runs → last ≤ z → z ≤ dim_z →
      (renderRel payload dim_z last runs).length ≤ fuel →
      spanSumF fuel (renderRel payload dim_z last runs) =
        some (dim_z - last) := by
  intro runs
  induction runs with
  | nil =>
    intro z last fuel _ _ _ hfuel
    rw [renderRel] at hfuel ⊢
    match fuel, hfuel with
    | fuel + 1, _ => simp [spanSumF]
  | cons r rs ih =>
    obtain ⟨s, e⟩ := r
    intro z last fuel hwf hlz hzd hfuel
    simp only [RunsWF] at hwf
    obtain ⟨h1, h2, h3, h4⟩ := hwf
    have hP : ((List.range' s (e - s)).flatMap payload).length = 2 * (e - s) :=
      length_flatMap_two payload hp (e - s) s
    rw [renderRel] at hfuel ⊢
    simp only [List.cons_append, List.nil_append, List.singleton_append,
      List.length_cons, List.length_append] at hfuel ⊢
    match fuel, hfuel with
    | fuel + 1, hfuel =>
      rw [spanSumF]
      rw [if_neg (by simp), if_neg (by omega)]
      simp only [List.append_assoc, List.singleton_append]
      have hdrop : ((List.range' s (e - s)).flatMap payload ++
          (e - s) :: renderRel payload dim_z e rs).drop (2 * (e - s)) =
          (e - s) :: renderRel payload dim_z e rs := by
        rw [← hP]
        exact List.drop_left _ _
      have htake : ((List.range' s (e - s)).flatMap payload ++
          (e - s) :: renderRel payload dim_z e rs).take (2 * (e - s)) =
          (List.range' s (e - s)).flatMap payload := by
        rw [← hP]
        exact List.take_left _ _
      rw [hdrop]
      split
      next heq => exact absurd heq (by simp)
      next c' rest' heq =>
        injection heq with hc' hrest'
        subst hc'
        subst hrest'
        rw [if_pos ⟨rfl, by rw [htake]; exact hP⟩]
        have hrest : (renderRel payload dim_z e rs).length ≤ fuel := by
          have := hfuel
          omega
        rw [ih e e fuel h4 le_rfl h3 hrest]
        simp only [Option.map_some']
        congr 1
        omega

/-- C4 (amended): for every grid and column, the vox converter's encoder
satisfies column coverage — reading back its output, the sum over the spans of
skip plus count, plus the remaining byte of the final terminator pair, equals
`dim_z` exactly. -/
theorem column_coverage_vox
    (grid : Nat → Nat → Nat → Nat) (dim_x dim_y dim_z x y : Nat) :
    spanSum (create_vxl_from_grid_spans grid dim_x dim_y dim_z x y 0 0) =
      some dim_z := by
  rw [spanSum, create_vxl_from_grid_spans_eq_renderRel]
  have h := spanSumF_renderRel
    (fun vz => [map_color_to_ra2 (grid x y vz),
      calculate_normal_index x y vz grid dim_x dim_y dim_z])
    (fun _ => rfl) dim_z
    (runsFrom (fun w => grid x y w == 0) dim_z 0) 0 0 _
    (runsFrom_wf _ dim_z 0 (Nat.zero_le _)) le_rfl (Nat.zero_le _) le_rfl
  simpa using h

/-- A 1×1×3 boolean column occupied only at z = 1. -/
def colOneMid : Nat → Nat → Nat → Bool := fun x y z =>
  x == 0 && y == 0 && z == 1

/-- Counterexample to C4 as stated: for the OBJ converter's encoder the sum of
skip+count over the spans plus the terminator's remaining byte is 2, not the
column height 3 (the skip byte is absolute and the terminator remaining byte
is always 0, so trailing empty cells are not accounted for). -/
theorem column_coverage_obj_counterexample :
    spanSum (create_vxl_spans_obj colOneMid 3 0 0 0 3 0) = some 2 ∧
    spanSum (create_vxl_spans_obj colOneMid 3 0 0 0 3 0) ≠ some 3 := by
  have h : create_vxl_spans_obj colOneMid 3 0 0 0 3 0 =
      [1, 1, 100, 0, 1, 0, 0] := by
    simp [create_vxl_spans_obj, skipWhile, spanBytes, colOneMid,
      calculate_normals_index, exposedObj, coarsePick, List.range']
  rw [h]
  constructor
  · simp [spanSum, spanSumF]
  · simp [spanSum, spanSumF]

/-! ## Span decoder (C1)

The per-column span walk of `read_vxl_voxels` in `auto_normalize_vxl.py`,
lines 164-194.  `data` is the byte window starting at this column's span data;
the walk reads `skip = data[pos]`, `count = data[pos+1]`, advances `pos` by 2,
stops on the `(0, 0)` pair, records `count` cells at heights `z+skip+i`
(guarded by `z+skip+i < dim_z` and the buffer bound), advances `z` by
`skip + count`, and then — this is the decoder's reading of the span's
trailing duplicate-count byte — consumes one more byte `end_count` and adds it
to `z` as well (lines 191-194).  The Python dict `voxels[(x,y,z+i)]` becomes a
list of `(height, color, normal)` triples; the one unguarded read
`data[pos+1]` is modelled with default 0, which no settled statement
exercises. -/
def read_vxl_voxels_column (data : List Nat) (dim_z pos z : Nat) :
    List (Nat × Nat × Nat) :=
  if _h : z < dim_z then
    if _hp : pos < data.length then
      if h0 : data.getD pos 0 = 0 ∧ data.getD (pos + 1) 0 = 0 then []
      else
        ((List.range (data.getD (pos + 1) 0)).filterMap (fun i =>
          if z + data.getD pos 0 + i < dim_z ∧
              pos + 2 + i * 2 + 1 < data.length then
            some (z + data.getD pos 0 + i,
                  data.getD (pos + 2 + i * 2) 0,
                  data.getD (pos + 2 + i * 2 + 1) 0)
          else none))
        ++ (if pos + 2 + (data.getD (pos + 1) 0) * 2 < data.length then
              read_vxl_voxels_column data dim_z
                (pos + 2 + (data.getD (pos + 1) 0) * 2 + 1)
                (z + data.getD pos 0 + data.getD (pos + 1) 0 +
                  data.getD (pos + 2 + (data.getD (pos + 1) 0) * 2) 0)
            else
              read_vxl_voxels_column data dim_z
                (pos + 2 + (data.getD (pos + 1) 0) * 2)
                (z + data.getD pos 0 + data.getD (pos + 1) 0))
    else []
  else []
termination_by dim_z - z
decreasing_by
  · omega
  · omega

/-- The 1×1×3 color grid occupied at z = 0 and z = 2 (color byte 200). -/
def gridTwoRuns : Nat → Nat → Nat → Nat := fun x y z =>
  if x = 0 ∧ y = 0 ∧ (z = 0 ∨ z = 2) then 200 else 0

/-- C1 (failing-input evaluation): encoding the 1×1×3 grid occupied at
z = 0 and z = 2 produces the two-span column bytes
`[0,1,200,0,1, 1,1,200,0,1, 0,0]`, but the decoder's span walk returns only
the cell at height 0 — the voxel the grid holds at z = 2 (color 200) is lost,
because after the first span the decoder has added the duplicate-count byte to
`z` and then places (and here discards) the second span's cell at height 3.
So decode ∘ encode does not reproduce the grid. -/
theorem decode_encode_column_mismatch :
    create_vxl_from_grid_spans gridTwoRuns 1 1 3 0 0 0 0 =
      [0, 1, 200, 0, 1, 1, 1, 200, 0, 1, 0, 0]
    ∧ read_vxl_voxels_column [0, 1, 200, 0, 1, 1, 1, 200, 0, 1, 0, 0] 3 0 0 =
      [(0, 200, 0)]
    ∧ gridTwoRuns 0 0 2 = 200 := by
  refine ⟨?_, ?_, rfl⟩
  · simp [create_vxl_from_grid_spans, skipWhile, spanBytes, gridTwoRuns,
      map_color_to_ra2, calculate_normal_index, exposedVox, coarsePick,
      List.range']
  · simp [read_vxl_voxels_column, List.range_succ]

/-! ## Limb tailer layout (C3)

The writer is `create_vxl_from_grid` (`vox_to_vxl.py` lines 273-305): three
little-endian u32 intra-body offsets, the f32 scale, twelve f32 transform
entries, 3+3 f32 bounds, then the three dimension bytes and the normals-mode
byte 4.  The float-valued fields are serialized with `struct.pack('<f', …)`;
their IEEE-754 images enter here as given byte blocks of the right length
(4, 48, 12, 12), since nothing below depends on their values.  The reader is
`read_vxl_voxels` (`auto_normalize_vxl.py` lines 125-133), which takes the
dimensions from tailer offsets 80-82. -/

/-- Embeds `struct.pack('<I', n)`: four little-endian bytes. -/
def u32le (n : Nat) : List Nat :=
  [n % 256, n / 256 % 256, n / 65536 % 256, n / 16777216 % 256]

/-- The 92-byte limb tailer of `create_vxl_from_grid` (lines 273-305). -/
def create_vxl_from_grid_tailer (num_columns dim_x dim_y dim_z : Nat)
    (scaleB transformB minbB maxbB : List Nat) : List Nat :=
  u32le 0 ++ u32le (num_columns * 4) ++ u32le (num_columns * 8)
    ++ scaleB ++ transformB ++ minbB ++ maxbB
    ++ [dim_x, dim_y, dim_z, 4]

/-- The dimension bytes as `read_vxl_voxels` reads them
(`auto_normalize_vxl.py` lines 131-133): tailer offsets 80, 81, 82. -/
def read_vxl_voxels_dims (data : List Nat) (tailer_offset : Nat) :
    Nat × Nat × Nat :=
  (data.getD (tailer_offset + 80) 0, data.getD (tailer_offset + 81) 0,
   data.getD (tailer_offset + 82) 0)

lemma getD_append_block {α : Type} (l₁ l₂ : List α) (k : Nat) (d : α) :
    (l₁ ++ l₂).getD (l₁.length + k) d = l₂.getD k d := by
  rw [List.getD_append_right l₁ l₂ d (l₁.length + k) (Nat.le_add_right _ _)]
  congr 1
  omega

/-- C3 (failing-input evaluation): in the encoder's 92-byte tailer the three
dimension bytes and the normals-mode byte are indeed the last four bytes,
offsets 88-91 (as the spec's layout table says), but the decoder's dimension
read targets tailer offsets 80-82, which land on bytes 4-6 of the packed
max-bounds float block — so decoding returns max-bounds float bytes, not the
dimensions the encoder stored. -/
theorem tailer_dims_read_from_bounds_bytes
    (num_columns dim_x dim_y dim_z : Nat)
    (scaleB transformB minbB maxbB t : List Nat)
    (hs : scaleB.length = 4) (htr : transformB.length = 48)
    (hmin : minbB.length = 12) (hmax : maxbB.length = 12)
    (hT : t = create_vxl_from_grid_tailer num_columns dim_x dim_y dim_z
      scaleB transformB minbB maxbB) :
    t.length = 92
    ∧ t.getD 88 0 = dim_x ∧ t.getD 89 0 = dim_y ∧ t.getD 90 0 = dim_z
    ∧ t.getD 91 0 = 4
    ∧ read_vxl_voxels_dims t 0 =
        (maxbB.getD 4 0, maxbB.getD 5 0, maxbB.getD 6 0) := by
  have hregroup : t =
      (u32le 0 ++ u32le (num_columns * 4) ++ u32le (num_columns * 8)
        ++ scaleB ++ transformB ++ minbB) ++
      (maxbB ++ [dim_x, dim_y, dim_z, 4]) := by
    rw [hT]
    simp [create_vxl_from_grid_tailer, List.append_assoc]
  have hplen : (u32le 0 ++ u32le (num_columns * 4) ++ u32le (num_columns * 8)
      ++ scaleB ++ transformB ++ minbB).length = 76 := by
    simp [u32le, hs, htr, hmin]
  have peel : ∀ k d : Nat, t.getD (76 + k) d =
      (maxbB ++ [dim_x, dim_y, dim_z, 4]).getD k d := by
    intro k d
    rw [hregroup, ← hplen, getD_append_block]
  have peel2 : ∀ j d : Nat, (maxbB ++ [dim_x, dim_y, dim_z, 4]).getD (12 + j) d
      = [dim_x, dim_y, dim_z, 4].getD j d := by
    intro j d
    rw [← hmax, getD_append_block]
  refine ⟨?_, ?_, ?_, ?_, ?_, ?_⟩
  · rw [hregroup]
    simp [List.length_append, hplen, hmax]
    simp [u32le, hs, htr, hmin]
  · have h := (peel 12 0).trans (peel2 0 0)
    simpa using h
  · have h := (peel 13 0).trans (peel2 1 0)
    simpa using h
  · have h := (peel 14 0).trans (peel2 2 0)
    simpa using h
  · have h := (peel 15 0).trans (peel2 3 0)
    simpa using h
  · have h4 := peel 4 0
    have h5 := peel 5 0
    have h6 := peel 6 0
    rw [List.getD_append _ _ _ _ (by omega)] at h4 h5 h6
    unfold read_vxl_voxels_dims
    rw [show (0:Nat) + 80 = 76 + 4 by rfl, show (0:Nat) + 81 = 76 + 5 by rfl,
      show (0:Nat) + 82 = 76 + 6 by rfl, h4, h5, h6]

/-- Witness for `tailer_dims_read_from_bounds_bytes`: with max-bounds bytes
all 9 and stored dimensions (2, 2, 2), the decoder returns (9, 9, 9) while the
tailer's bytes 88-90 hold the true dimensions 2, 2, 2. -/
theorem tailer_dims_read_from_bounds_bytes_witness :
    read_vxl_voxels_dims
      (create_vxl_from_grid_tailer 4 2 2 2 (List.replicate 4 0)
        (List.replicate 48 0) (List.replicate 12 0) (List.replicate 12 9)) 0 =
      (9, 9, 9)
    ∧ (create_vxl_from_grid_tailer 4 2 2 2 (List.replicate 4 0)
        (List.replicate 48 0) (List.replicate 12 0)
        (List.replicate 12 9)).getD 88 0 = 2 := by
  have h := tailer_dims_read_from_bounds_bytes 4 2 2 2 (List.replicate 4 0)
    (List.replicate 48 0) (List.replicate 12 0) (List.replicate 12 9) _
    (by decide) (by simp) (by simp) (by simp) rfl
  refine ⟨?_, h.2.1⟩
  rw [h.2.2.2.2.2]
  decide

/-! ## Structural decode errors (C5)

`read_vxl_structure` from `auto_normalize_vxl.py` lines 79-113.  The only
explicit validation in the source is the 16-byte magic comparison (line 82,
`raise ValueError`).  `struct.unpack_from` raises `struct.error` when fewer
than four bytes remain, modelled as the `truncated` error.  The limb-name
slice `data[offset:offset+16].split(b'\x00')[0]` never raises and simply
shortens on a short buffer.  Note the header's duplicate limb-count field
(bytes 24-27) is never read. -/

inductive VxlError
  | badMagic
  | truncated
deriving DecidableEq

structure VxlStructure where
  num_limbs : Nat
  body_size : Nat
  limb_header_start : Nat
  body_start : Nat
  tailer_start : Nat
  limb_names : List (List Nat)
deriving DecidableEq

/-- The magic bytes `b'Voxel Animation\x00'`. -/
def VXL_MAGIC : List Nat :=
  [86, 111, 120, 101, 108, 32, 65, 110, 105, 109, 97, 116, 105, 111, 110, 0]

/-- Embeds `struct.unpack_from('<I', data, off)`: `none` models the error
raised when fewer than four bytes remain. -/
def readU32LEAt (data : List Nat) (off : Nat) : Option Nat :=
  if off + 4 ≤ data.length then
    some (data.getD off 0 + 256 * data.getD (off + 1) 0 +
      65536 * data.getD (off + 2) 0 + 16777216 * data.getD (off + 3) 0)
  else none

/-- Embeds `read_vxl_structure(data)` (`auto_normalize_vxl.py` lines 79-113). -/
def read_vxl_structure (data : List Nat) : Except VxlError VxlStructure :=
  if data.take 16 ≠ VXL_MAGIC then .error .badMagic
  else
    match readU32LEAt data 20, readU32LEAt data 28 with
    | some num_limbs, some body_size =>
        .ok { num_limbs := num_limbs, body_size := body_size,
              limb_header_start := 34 + 768,
              body_start := 34 + 768 + num_limbs * 28,
              tailer_start := 34 + 768 + num_limbs * 28 + body_size,
              limb_names := (List.range num_limbs).map (fun i =>
                ((data.drop (34 + 768 + i * 28)).take 16).takeWhile
                  (fun b => !(b == 0))) }
    | _, _ => .error .truncated

lemma seg_eq (d₁ d₂ : List Nat) (hlen : d₁.length = d₂.length) (lo n : Nat)
    (hpt : ∀ i, lo ≤ i → i < lo + n → d₁.getD i 0 = d₂.getD i 0) :
    (d₁.drop lo).take n = (d₂.drop lo).take n := by
  apply List.ext_getElem
  · simp [hlen]
  · intro i h1 h2
    simp only [List.length_take, List.length_drop] at h1 h2
    rw [List.getElem_take, List.getElem_drop, List.getElem_take,
      List.getElem_drop]
    have hb : lo + i < d₁.length := by omega
    have := hpt (lo + i) (by omega) (by omega)
    rw [List.getD_eq_getElem d₁ 0 hb, List.getD_eq_getElem d₂ 0 (by omega)]
      at this
    exact this

lemma readU32LEAt_congr (d₁ d₂ : List Nat) (hlen : d₁.length = d₂.length)
    (off : Nat) (hpt : ∀ i, off ≤ i → i < off + 4 → d₁.getD i 0 = d₂.getD i 0) :
    readU32LEAt d₁ off = readU32LEAt d₂ off := by
  unfold readU32LEAt
  rw [hlen]
  split
  · rw [hpt off (by omega) (by omega), hpt (off + 1) (by omega) (by omega),
      hpt (off + 2) (by omega) (by omega), hpt (off + 3) (by omega) (by omega)]
  · rfl

/-- C5 (amended): decode aborts with `badMagic` whenever the first 16 bytes
differ from `"Voxel Animation\0"`, and with the unpack error (`truncated`)
when the fixed-size header fields extend past the buffer end; but the header's
duplicate limb-count field is never consulted — two buffers of equal length
that agree everywhere except possibly on bytes 24-27 decode to exactly the
same result, so inconsistent limb counts are accepted rather than rejected. -/
theorem read_vxl_structure_error_behavior
    (bad short d₁ d₂ : List Nat) (hbad : bad.take 16 ≠ VXL_MAGIC)
    (hsm : short.take 16 = VXL_MAGIC) (hst : short.length < 32)
    (hlen : d₁.length = d₂.length)
    (hpt : ∀ i, i < 24 ∨ 28 ≤ i → d₁.getD i 0 = d₂.getD i 0) :
    read_vxl_structure bad = .error .badMagic
    ∧ read_vxl_structure short = .error .truncated
    ∧ read_vxl_structure d₁ = read_vxl_structure d₂ := by
  refine ⟨?_, ?_, ?_⟩
  · unfold read_vxl_structure
    rw [if_pos hbad]
  · unfold read_vxl_structure
    rw [if_neg (by simp [hsm])]
    have h28 : readU32LEAt short 28 = none := by
      unfold readU32LEAt
      rw [if_neg (by omega)]
    rw [h28]
    cases readU32LEAt short 20 <;> rfl
  · have hmagic : d₁.take 16 = d₂.take 16 := by
      have h := seg_eq d₁ d₂ hlen 0 16 (fun i _ h2 => hpt i (Or.inl (by omega)))
      simpa using h
    have h20 : readU32LEAt d₁ 20 = readU32LEAt d₂ 20 :=
      readU32LEAt_congr d₁ d₂ hlen 20 (fun i h1 h2 => hpt i (Or.inl (by omega)))
    have h28 : readU32LEAt d₁ 28 = readU32LEAt d₂ 28 :=
      readU32LEAt_congr d₁ d₂ hlen 28 (fun i h1 h2 => hpt i (Or.inr (by omega)))
    unfold read_vxl_structure
    rw [hmagic, h20, h28]
    split
    · rfl
    · cases hv20 : readU32LEAt d₂ 20 with
      | none => rfl
      | some num_limbs =>
        cases hv28 : readU32LEAt d₂ 28 with
        | none => rfl
        | some body_size =>
          simp only [Except.ok.injEq, VxlStructure.mk.injEq]
          refine ⟨trivial, trivial, trivial, trivial, trivial, ?_⟩
          apply List.map_congr_left
          intro i _
          have h := seg_eq d₁ d₂ hlen (34 + 768 + i * 28) 16
            (fun j hj _ => hpt j (Or.inr (by omega)))
          rw [h]

/-- Witness for `read_vxl_structure_error_behavior`: a 1-byte buffer fails the
magic check, a 20-byte buffer with good magic is truncated, and two 32-byte
headers that differ only in the duplicate limb-count field (1 vs 2 at offset
24) decode identically. -/
theorem read_vxl_structure_error_behavior_witness :
    read_vxl_structure [0] = .error .badMagic
    ∧ read_vxl_structure (VXL_MAGIC ++ [1, 0, 0, 0]) = .error .truncated
    ∧ read_vxl_structure
        (VXL_MAGIC ++ [1, 0, 0, 0] ++ [1, 0, 0, 0] ++ [1, 0, 0, 0] ++
          [0, 0, 0, 0]) =
      read_vxl_structure
        (VXL_MAGIC ++ [1, 0, 0, 0] ++ [1, 0, 0, 0] ++ [2, 0, 0, 0] ++
          [0, 0, 0, 0]) := by
  have hptw : ∀ i, i < 24 ∨ 28 ≤ i →
      (VXL_MAGIC ++ [1, 0, 0, 0] ++ [1, 0, 0, 0] ++ [1, 0, 0, 0] ++
        [0, 0, 0, 0]).getD i 0 =
      (VXL_MAGIC ++ [1, 0, 0, 0] ++ [1, 0, 0, 0] ++ [2, 0, 0, 0] ++
        [0, 0, 0, 0]).getD i 0 := by
    intro i hi
    by_cases h32 : i < 32
    · rcases hi with h | h
      · interval_cases i <;> rfl
      · interval_cases i <;> rfl
    · rw [List.getD_eq_default _ _ (by simp [VXL_MAGIC]; omega),
        List.getD_eq_default _ _ (by simp [VXL_MAGIC]; omega)]
  have h := read_vxl_structure_error_behavior [0] (VXL_MAGIC ++ [1, 0, 0, 0])
    (VXL_MAGIC ++ [1, 0, 0, 0] ++ [1, 0, 0, 0] ++ [1, 0, 0, 0] ++ [0, 0, 0, 0])
    (VXL_MAGIC ++ [1, 0, 0, 0] ++ [1, 0, 0, 0] ++ [2, 0, 0, 0] ++ [0, 0, 0, 0])
    (by decide) (by decide) (by decide) (by decide) hptw
  exact h

/-- Counterexample to C5 as stated: a 32-byte header whose two limb-count
fields disagree (1 at offset 20, 2 at offset 24) is decoded successfully —
no `InconsistentLimbCount` abort exists in the code. -/
theorem inconsistent_limb_count_accepted :
    read_vxl_structure
        (VXL_MAGIC ++ [1, 0, 0, 0] ++ [1, 0, 0, 0] ++ [2, 0, 0, 0] ++
          [0, 0, 0, 0]) =
      .ok { num_limbs := 1, body_size := 0, limb_header_start := 802,
            body_start := 830, tailer_start := 830, limb_names := [[]] }
    ∧ readU32LEAt
        (VXL_MAGIC ++ [1, 0, 0, 0] ++ [1, 0, 0, 0] ++ [2, 0, 0, 0] ++
          [0, 0, 0, 0]) 20 = some 1
    ∧ readU32LEAt
        (VXL_MAGIC ++ [1, 0, 0, 0] ++ [1, 0, 0, 0] ++ [2, 0, 0, 0] ++
          [0, 0, 0, 0]) 24 = some 2 := by
  refine ⟨?_, by decide, by decide⟩
  rfl

/-! ## Interior fill (C10)

`fill_interior` from `obj_to_vxl.py` lines 137-155.  The source first deep
copies the grid (line 139) and then, per (x, y) column, walks z upward with
two state booleans: `inside` toggles on each transition into a solid run and
empty cells are set in the copy exactly when `inside` holds.  The embedding
processes one column as a list. -/

/-- The z-scan of one column of `fill_interior` (lines 143-153), with the
loop state `(inside, last_was_solid)`. -/
def fillColumnGo (inside last_was_solid : Bool) : List Bool → List Bool
  | [] => []
  | c :: rest =>
    if c then
      true :: fillColumnGo (if last_was_solid then inside else !inside) true
        rest
    else
      inside :: fillColumnGo inside false rest

/-- Embeds `fill_interior(voxel_grid, size)` as a function of cell coordinates. -/
def fill_interior (voxel_grid : Nat → Nat → Nat → Bool) (size : Nat) :
    Nat → Nat → Nat → Bool :=
  fun x y z =>
    (fillColumnGo false false ((List.range size).map (voxel_grid x y))).getD z
      false

/-- Number of cells that begin a solid run (solid cell whose predecessor —
`prev` for the first cell — is empty). -/
def runsStarted (prev : Bool) : List Bool → Nat
  | [] => 0
  | c :: rest => (if c && !prev then 1 else 0) + runsStarted c rest

lemma decide_odd_succ (n : Nat) : decide (Odd (n + 1)) = !decide (Odd n) := by
  rcases Nat.even_or_odd n with h | h <;>
    simp [Nat.odd_add_one, h, Nat.not_odd_iff_even]

lemma fillColumnGo_getD (col : List Bool) :
    ∀ z inside last_was_solid, z < col.length →
      (fillColumnGo inside last_was_solid col).getD z false =
        (col.getD z false ||
          Bool.xor inside
            (decide (Odd (runsStarted last_was_solid (col.take z))))) := by
  induction col with
  | nil =>
    intro z _ _ hz
    simp at hz
  | cons c rest ih =>
    intro z inside last_was_solid hz
    cases z with
    | zero =>
      cases c <;> cases inside <;>
        simp [fillColumnGo, runsStarted, Nat.odd_iff]
    | succ z =>
      have hz' : z < rest.length := by
        simpa using hz
      cases c
      case false =>
        have hunf : fillColumnGo inside last_was_solid (false :: rest) =
            inside :: fillColumnGo inside false rest := by
          simp [fillColumnGo]
        have hrs : runsStarted last_was_solid ((false :: rest).take (z + 1)) =
            runsStarted false (rest.take z) := by
          simp [runsStarted]
        rw [hunf, List.getD_cons_succ, List.getD_cons_succ, hrs,
          ih z inside false hz']
      case true =>
        have hunf : fillColumnGo inside last_was_solid (true :: rest) =
            true :: fillColumnGo (if last_was_solid then inside else !inside)
              true rest := by
          simp [fillColumnGo]
        have hrs : runsStarted last_was_solid ((true :: rest).take (z + 1)) =
            (if last_was_solid then 0 else 1) + runsStarted true
              (rest.take z) := by
          cases last_was_solid <;> simp [runsStarted]
        rw [hunf, List.getD_cons_succ, List.getD_cons_succ, hrs,
          ih z (if last_was_solid then inside else !inside) true hz']
        cases last_was_solid
        · have hd := decide_odd_succ (runsStarted true (rest.take z))
          simp only [Bool.false_eq_true, if_false]
          rw [Nat.add_comm 1 (runsStarted true (rest.take z)), hd]
          generalize decide (Odd (runsStarted true (rest.take z))) = d
          cases inside <;> cases d <;> rfl
        · simp

/-- C10: the interior fill is monotone — every cell occupied in the input
grid is occupied in the result — and the only cells it adds are empty cells
whose (x, y) column has an odd number of solid-run starts below them (the
parity scanline rule).  (The source operates on a deep copy made at line 139
and never writes to its input.) -/
theorem fill_interior_parity
    (voxel_grid : Nat → Nat → Nat → Bool) (size x y z : Nat) (hz : z < size) :
    (voxel_grid x y z = true → fill_interior voxel_grid size x y z = true)
    ∧ fill_interior voxel_grid size x y z =
        (voxel_grid x y z ||
          decide (Odd (runsStarted false
            (((List.range size).map (voxel_grid x y)).take z)))) := by
  have hzl : z < ((List.range size).map (voxel_grid x y)).length := by
    simpa using hz
  have hcol : ((List.range size).map (voxel_grid x y)).getD z false =
      voxel_grid x y z := by
    rw [List.getD_eq_getElem _ _ hzl, List.getElem_map, List.getElem_range]
  have h := fillColumnGo_getD ((List.range size).map (voxel_grid x y)) z
    false false hzl
  rw [hcol] at h
  unfold fill_interior
  constructor
  · intro hocc
    rw [h, hocc]
    rfl
  · rw [h]
    cases voxel_grid x y z <;> simp

/-- Witness for `fill_interior_parity`: in the 1×1×3 column occupied at z = 0
and z = 2, the empty middle cell lies above one run start (odd), so the fill
closes it. -/
theorem fill_interior_parity_witness :
    fill_interior colTwoRuns 3 0 0 1 = true := by
  have h := (fill_interior_parity colTwoRuns 3 0 0 1 (by decide)).2
  rw [h]
  decide

/-! ## Voxelizer failure conditions (C9)

From `obj_to_vxl.py`: the zero-geometry guard in `main` (lines 415-417),
`get_bounding_box`/`normalize_vertices` (lines 42-79, note line 62-63:
`if max_size == 0: max_size = 1` — a zero-extent mesh is NOT rejected), and
the occupied-bounds scan at the top of `create_vxl` (lines 182-200), which
returns `False` before any span bytes are built when no cell is occupied.
Python floats are modelled as exact rationals. -/

inductive ObjError
  | emptyGeometry
  | emptyResult
deriving DecidableEq

/-- The geometry guard of `main` (`obj_to_vxl.py` lines 415-417). -/
def obj_main_geometry_check (vertices : List (ℚ × ℚ × ℚ))
    (faces : List (Nat × Nat × Nat)) : Except ObjError Unit :=
  if vertices.length = 0 ∨ faces.length = 0 then .error .emptyGeometry
  else .ok ()

/-- Embeds `get_bounding_box(vertices)` (`obj_to_vxl.py` lines 42-50): per-axis
minima and maxima.  Python `min()`/`max()` raise on an empty list; callers
guard non-emptiness first (line 415), so the `[]` case below is unreachable
junk. -/
def get_bounding_box (vertices : List (ℚ × ℚ × ℚ)) :
    (ℚ × ℚ × ℚ) × (ℚ × ℚ × ℚ) :=
  match vertices with
  | [] => ((0, 0, 0), (0, 0, 0))
  | v :: rest =>
    (rest.foldl (fun m w => (min m.1 w.1, min m.2.1 w.2.1, min m.2.2 w.2.2)) v,
     rest.foldl (fun m w => (max m.1 w.1, max m.2.1 w.2.1, max m.2.2 w.2.2)) v)

/-- Embeds `normalize_vertices(vertices, target_size)` (`obj_to_vxl.py` lines
52-79). -/
def normalize_vertices (vertices : List (ℚ × ℚ × ℚ)) (target_size : ℚ) :
    List (ℚ × ℚ × ℚ) :=
  let bounds := get_bounding_box vertices
  let size_x := bounds.2.1 - bounds.1.1
  let size_y := bounds.2.2.1 - bounds.1.2.1
  let size_z := bounds.2.2.2 - bounds.1.2.2
  let max_size0 := max size_x (max size_y size_z)
  let max_size := if max_size0 = 0 then 1 else max_size0
  let scale := (target_size - 2) / max_size
  let center_x := (bounds.1.1 + bounds.2.1) / 2
  let center_y := (bounds.1.2.1 + bounds.2.2.1) / 2
  let center_z := (bounds.1.2.2 + bounds.2.2.2) / 2
  vertices.map (fun v =>
    ((v.1 - center_x) * scale + target_size / 2,
     (v.2.1 - center_y) * scale + target_size / 2,
     (v.2.2 - center_z) * scale + target_size / 2))

/-- The occupied-bounds scan opening `create_vxl` (`obj_to_vxl.py` lines
182-206): fold over all cells in x, y, z loop order; `none` models
`create_vxl` printing "No voxels generated!" and returning `False` before any
bytes are produced; otherwise the cropped dimensions
`actual_max - actual_min + 1` per axis. -/
def create_vxl_bounds_state (voxel_grid : Nat → Nat → Nat → Bool)
    (size_x size_y size_z : Nat) : (Nat × Nat) × (Nat × Nat) × (Nat × Nat) :=
  ((List.range size_x).flatMap (fun x =>
    (List.range size_y).flatMap (fun y =>
      (List.range size_z).map (fun z => (x, y, z))))).foldl
    (fun (st : (Nat × Nat) × (Nat × Nat) × (Nat × Nat)) c =>
      if voxel_grid c.1 c.2.1 c.2.2 then
        ((min st.1.1 c.1, max st.1.2 c.1),
         (min st.2.1.1 c.2.1, max st.2.1.2 c.2.1),
         (min st.2.2.1 c.2.2, max st.2.2.2 c.2.2))
      else st)
    ((size_x, 0), (size_y, 0), (size_z, 0))

def create_vxl_bounds (voxel_grid : Nat → Nat → Nat → Bool)
    (size_x size_y size_z : Nat) : Option (Nat × Nat × Nat) :=
  if (create_vxl_bounds_state voxel_grid size_x size_y size_z).1.2 <
      (create_vxl_bounds_state voxel_grid size_x size_y size_z).1.1 then none
  else some
    ((create_vxl_bounds_state voxel_grid size_x size_y size_z).1.2 -
       (create_vxl_bounds_state voxel_grid size_x size_y size_z).1.1 + 1,
     (create_vxl_bounds_state voxel_grid size_x size_y size_z).2.1.2 -
       (create_vxl_bounds_state voxel_grid size_x size_y size_z).2.1.1 + 1,
     (create_vxl_bounds_state voxel_grid size_x size_y size_z).2.2.2 -
       (create_vxl_bounds_state voxel_grid size_x size_y size_z).2.2.1 + 1)

lemma foldl_no_voxel {α : Type} (g : Nat → Nat → Nat → Bool)
    (f : α → Nat × Nat × Nat → α) :
    ∀ (l : List (Nat × Nat × Nat)) (st : α),
      (∀ c ∈ l, g c.1 c.2.1 c.2.2 = false) →
      l.foldl (fun st c => if g c.1 c.2.1 c.2.2 then f st c else st) st = st := by
  intro l
  induction l with
  | nil => intro st _; rfl
  | cons c rest ih =>
    intro st hall
    simp only [List.foldl_cons]
    rw [if_neg (by simp [hall c (by simp)])]
    exact ih st (fun d hd => hall d (by simp [hd]))

/-- C9 (amended): a mesh with zero vertices or zero faces is rejected by the
`main` guard with `EmptyGeometry` before any voxelization, and a grid with
zero occupied cells makes `create_vxl`'s bounds scan fail before any encode
output is produced.  (A mesh with zero bounding-box extent, however, is NOT
rejected by `normalize_vertices` — see the counterexample.) -/
theorem voxelizer_failure_conditions
    (vertices : List (ℚ × ℚ × ℚ)) (faces : List (Nat × Nat × Nat))
    (voxel_grid : Nat → Nat → Nat → Bool) (size_x size_y size_z : Nat)
    (hgeom : vertices.length = 0 ∨ faces.length = 0)
    (hsx : 0 < size_x)
    (hempty : ∀ x y z, x < size_x → y < size_y → z < size_z →
      voxel_grid x y z = false) :
    obj_main_geometry_check vertices faces = .error .emptyGeometry
    ∧ create_vxl_bounds voxel_grid size_x size_y size_z = none := by
  constructor
  · unfold obj_main_geometry_check
    rw [if_pos hgeom]
  · have hstate : create_vxl_bounds_state voxel_grid size_x size_y size_z =
        ((size_x, 0), (size_y, 0), (size_z, 0)) := by
      unfold create_vxl_bounds_state
      apply foldl_no_voxel
      intro c hc
      simp only [List.mem_flatMap, List.mem_map, List.mem_range] at hc
      obtain ⟨x, hx, y, hy, z, hz, rfl⟩ := hc
      exact hempty x y z hx hy hz
    unfold create_vxl_bounds
    rw [hstate]
    rw [if_pos (by simpa using hsx)]

/-- Witness for `voxelizer_failure_conditions`: an empty vertex/face list and
an all-empty 1×1×1 grid. -/
theorem voxelizer_failure_conditions_witness :
    obj_main_geometry_check [] [] = .error .emptyGeometry
    ∧ create_vxl_bounds (fun _ _ _ => false) 1 1 1 = none := by
  exact voxelizer_failure_conditions [] [] (fun _ _ _ => false) 1 1 1
    (by decide) (by decide) (fun _ _ _ _ _ _ => rfl)

/-- Counterexample to C9 as stated: a degenerate mesh whose bounding box has
zero extent (three coincident vertices, one face) passes the geometry guard
and is normalized without any error — `normalize_vertices` substitutes 1 for
the zero extent (line 63) and conversion proceeds; no `EmptyGeometry` failure
occurs. -/
theorem zero_extent_mesh_not_rejected :
    obj_main_geometry_check [(1, 1, 1), (1, 1, 1), (1, 1, 1)] [(0, 1, 2)] =
      .ok ()
    ∧ normalize_vertices [(1, 1, 1), (1, 1, 1), (1, 1, 1)] 40 =
        [(20, 20, 20), (20, 20, 20), (20, 20, 20)] := by
  constructor
  · rfl
  · norm_num [normalize_vertices, get_bounding_box]

/-! ## Fine-mode normal classifier (C7)

From `auto_normalize_vxl.py`: `NORMALS_TABLE` (lines 14-52),
`normalize_vector` (lines 54-59), `dot_product` (lines 61-63),
`find_closest_normal` (lines 65-77) and `calculate_surface_normal`
(lines 204-232).  Python floats are modelled as exact reals; the decimal
literals of the table enter verbatim. -/

/-- The 36-entry RA2 normals table (lines 14-52). -/
noncomputable def NORMALS_TABLE : List (ℝ × ℝ × ℝ) :=
  [(0, 0, 1), (0, 0, -1), (1, 0, 0), (-1, 0, 0), (0, 1, 0), (0, -1, 0),
   (0.707, 0, 0.707), (-0.707, 0, 0.707), (0, 0.707, 0.707),
   (0, -0.707, 0.707), (0.707, 0, -0.707), (-0.707, 0, -0.707),
   (0, 0.707, -0.707), (0, -0.707, -0.707), (0.707, 0.707, 0),
   (-0.707, 0.707, 0), (0.707, -0.707, 0), (-0.707, -0.707, 0),
   (0.577, 0.577, 0.577), (-0.577, 0.577, 0.577), (0.577, -0.577, 0.577),
   (-0.577, -0.577, 0.577), (0.577, 0.577, -0.577), (-0.577, 0.577, -0.577),
   (0.577, -0.577, -0.577), (-0.577, -0.577, -0.577),
   (0.894, 0.447, 0), (-0.894, 0.447, 0), (0.894, -0.447, 0),
   (-0.894, -0.447, 0), (0.447, 0, 0.894), (-0.447, 0, 0.894),
   (0.447, 0, -0.894), (-0.447, 0, -0.894), (0, 0.447, 0.894),
   (0, -0.447, 0.894)]

/-- Embeds `normalize_vector(v)` (lines 54-59): unit direction, with short vectors
defaulting to up. -/
noncomputable def normalize_vector (v : ℝ × ℝ × ℝ) : ℝ × ℝ × ℝ :=
  if Real.sqrt (v.1 ^ 2 + v.2.1 ^ 2 + v.2.2 ^ 2) < 0.0001 then (0, 0, 1)
  else (v.1 / Real.sqrt (v.1 ^ 2 + v.2.1 ^ 2 + v.2.2 ^ 2),
        v.2.1 / Real.sqrt (v.1 ^ 2 + v.2.1 ^ 2 + v.2.2 ^ 2),
        v.2.2 / Real.sqrt (v.1 ^ 2 + v.2.1 ^ 2 + v.2.2 ^ 2))

/-- Embeds `dot_product(v1, v2)` (lines 61-63). -/
noncomputable def dot_product (v1 v2 : ℝ × ℝ × ℝ) : ℝ :=
  v1.1 * v2.1 + v1.2.1 * v2.2.1 + v1.2.2 * v2.2.2

/-- The `for i, table_normal in enumerate(NORMALS_TABLE)` loop of
`find_closest_normal` (lines 71-75): state `(i, best_index, best_dot)`,
updating on a strictly larger dot product. -/
noncomputable def find_closest_go (u : ℝ × ℝ × ℝ) :
    List (ℝ × ℝ × ℝ) → Nat → Nat → ℝ → Nat
  | [], _, best_index, _ => best_index
  | t :: rest, i, best_index, best_dot =>
    if dot_product u t > best_dot then
      find_closest_go u rest (i + 1) i (dot_product u t)
    else
      find_closest_go u rest (i + 1) best_index best_dot

/-- Embeds `find_closest_normal(normal)` (lines 65-77): normalize the input, then
scan the table with `best_index = 0`, `best_dot = -2.0`. -/
noncomputable def find_closest_normal (normal : ℝ × ℝ × ℝ) : Nat :=
  find_closest_go (normalize_vector normal) NORMALS_TABLE 0 0 (-2)

/-- The `neighbors` list of `calculate_surface_normal` (lines 211-217):
offset and outward unit vector per face. -/
noncomputable def surfaceNeighbors :
    List ((Int × Int × Int) × (ℝ × ℝ × ℝ)) :=
  [((1, 0, 0), (1, 0, 0)), ((-1, 0, 0), (-1, 0, 0)),
   ((0, 1, 0), (0, 1, 0)), ((0, -1, 0), (0, -1, 0)),
   ((0, 0, 1), (0, 0, 1)), ((0, 0, -1), (0, 0, -1))]

/-- Embeds `calculate_surface_normal(voxels, x, y, z, dims)` (lines 204-232): add the
outward unit vector of every exposed face (neighbor out of bounds or absent
from the voxel dict) and normalize the sum. -/
noncomputable def calculate_surface_normal (voxels : Int → Int → Int → Bool)
    (x y z dx dy dz : Int) : ℝ × ℝ × ℝ :=
  normalize_vector (surfaceNeighbors.foldl
    (fun (n : ℝ × ℝ × ℝ) p =>
      if x + p.1.1 < 0 ∨ x + p.1.1 ≥ dx ∨ y + p.1.2.1 < 0 ∨ y + p.1.2.1 ≥ dy ∨
          z + p.1.2.2 < 0 ∨ z + p.1.2.2 ≥ dz ∨
          voxels (x + p.1.1) (y + p.1.2.1) (z + p.1.2.2) = false then
        (n.1 + p.2.1, n.2.1 + p.2.2.1, n.2.2 + p.2.2.2)
      else n)
    (0, 0, 0))

/-- Dot product of a direction with the `j`-th table entry. -/
noncomputable def tableDot (u : ℝ × ℝ × ℝ) (j : Nat) : ℝ :=
  dot_product u (NORMALS_TABLE.getD j (0, 0, 0))

lemma normalize_vector_zero : normalize_vector (0, 0, 0) = (0, 0, 1) := by
  unfold normalize_vector
  rw [if_pos]
  norm_num

lemma normalize_vector_up : normalize_vector (0, 0, 1) = (0, 0, 1) := by
  unfold normalize_vector
  rw [if_neg]
  · norm_num
  · norm_num

lemma normalize_vector_third_ge (v : ℝ × ℝ × ℝ) :
    -1 ≤ (normalize_vector v).2.2 := by
  unfold normalize_vector
  split
  · norm_num
  · rename_i hlen
    push_neg at hlen
    have hl0 : (0:ℝ) < Real.sqrt (v.1 ^ 2 + v.2.1 ^ 2 + v.2.2 ^ 2) :=
      lt_of_lt_of_le (by norm_num) hlen
    have hsq : v.2.2 ^ 2 ≤ v.1 ^ 2 + v.2.1 ^ 2 + v.2.2 ^ 2 := by
      nlinarith [sq_nonneg v.1, sq_nonneg v.2.1]
    have habs : |v.2.2| ≤ Real.sqrt (v.1 ^ 2 + v.2.1 ^ 2 + v.2.2 ^ 2) := by
      calc |v.2.2| = Real.sqrt (v.2.2 ^ 2) := (Real.sqrt_sq_eq_abs _).symm
        _ ≤ _ := Real.sqrt_le_sqrt hsq
    show -1 ≤ v.2.2 / Real.sqrt (v.1 ^ 2 + v.2.1 ^ 2 + v.2.2 ^ 2)
    rw [le_div_iff₀ hl0]
    have h := (abs_le.mp habs).1
    linarith

lemma find_closest_go_spec (u : ℝ × ℝ × ℝ) :
    ∀ (l pre : List (ℝ × ℝ × ℝ)) (bi : Nat) (bd : ℝ),
      bi < pre.length →
      dot_product u (pre.getD bi (0, 0, 0)) = bd →
      (∀ j, j < pre.length → dot_product u (pre.getD j (0, 0, 0)) ≤ bd) →
      (∀ j, j < bi → dot_product u (pre.getD j (0, 0, 0)) < bd) →
      find_closest_go u l pre.length bi bd < (pre ++ l).length ∧
      (∀ j, j < (pre ++ l).length →
        dot_product u ((pre ++ l).getD j (0, 0, 0)) ≤
          dot_product u ((pre ++ l).getD
            (find_closest_go u l pre.length bi bd) (0, 0, 0))) ∧
      (∀ j, j < find_closest_go u l pre.length bi bd →
        dot_product u ((pre ++ l).getD j (0, 0, 0)) <
          dot_product u ((pre ++ l).getD
            (find_closest_go u l pre.length bi bd) (0, 0, 0))) := by
  intro l
  induction l with
  | nil =>
    intro pre bi bd hbi hbd hall hstrict
    simp only [find_closest_go, List.append_nil]
    refine ⟨hbi, ?_, ?_⟩
    · intro j hj
      exact le_of_le_of_eq (hall j hj) hbd.symm
    · intro j hj
      exact lt_of_lt_of_eq (hstrict j hj) hbd.symm
  | cons t rest ih =>
    intro pre bi bd hbi hbd hall hstrict
    have hat : (pre ++ [t]).getD pre.length (0, 0, 0) = t := by
      rw [show pre.length = pre.length + 0 from rfl, getD_append_block]
      rfl
    rw [find_closest_go]
    by_cases hgt : dot_product u t > bd
    · rw [if_pos hgt]
      have h := ih (pre ++ [t]) pre.length (dot_product u t)
        (by simp)
        (by rw [hat])
        (by
          intro j hj
          simp only [List.length_append, List.length_cons, List.length_nil]
            at hj
          by_cases hj' : j < pre.length
          · rw [List.getD_append _ _ _ _ hj']
            exact le_trans (hall j hj') (le_of_lt hgt)
          · have hje : j = pre.length := by omega
            subst hje
            rw [hat])
        (by
          intro j hj
          rw [List.getD_append _ _ _ _ hj]
          exact lt_of_le_of_lt (hall j hj) hgt)
      simp only [List.length_append, List.length_cons, List.length_nil,
        List.append_assoc, List.singleton_append] at h
      convert h using 2 <;> simp [Nat.add_comm]
    · rw [if_neg hgt]
      have h := ih (pre ++ [t]) bi bd
        (by simp; omega)
        (by rw [List.getD_append _ _ _ _ hbi]; exact hbd)
        (by
          intro j hj
          simp only [List.length_append, List.length_cons, List.length_nil]
            at hj
          by_cases hj' : j < pre.length
          · rw [List.getD_append _ _ _ _ hj']
            exact hall j hj'
          · have hje : j = pre.length := by omega
            subst hje
            rw [hat]
            exact le_of_not_lt hgt)
        (by
          intro j hj
          rw [List.getD_append _ _ _ _ (by omega)]
          exact hstrict j hj)
      simp only [List.length_append, List.length_cons, List.length_nil,
        List.append_assoc, List.singleton_append] at h
      convert h using 2 <;> simp [Nat.add_comm]

lemma find_closest_normal_spec (v : ℝ × ℝ × ℝ) :
    find_closest_normal v < 36
    ∧ (∀ j, j < 36 → tableDot (normalize_vector v) j ≤
        tableDot (normalize_vector v) (find_closest_normal v))
    ∧ (∀ j, j < find_closest_normal v → tableDot (normalize_vector v) j <
        tableDot (normalize_vector v) (find_closest_normal v)) := by
  have hfirst : dot_product (normalize_vector v) (0, 0, 1) > -2 := by
    have h := normalize_vector_third_ge v
    unfold dot_product
    simp only [mul_zero, mul_one, zero_add]
    linarith
  have hsplit : NORMALS_TABLE = (0, 0, 1) :: NORMALS_TABLE.tail := rfl
  unfold find_closest_normal
  rw [hsplit, find_closest_go, if_pos hfirst]
  have h := find_closest_go_spec (normalize_vector v) NORMALS_TABLE.tail
    [(0, 0, 1)] 0 (dot_product (normalize_vector v) (0, 0, 1))
    (by simp) rfl
    (by
      intro j hj
      have hj0 : j = 0 := by simpa using hj
      subst hj0
      exact le_rfl)
    (by intro j hj; omega)
  rw [List.singleton_append, ← hsplit] at h
  exact ⟨h.1, h.2.1, h.2.2⟩

lemma tableDot_up_le_one (j : Nat) (hj : j < 36) : tableDot (0, 0, 1) j ≤ 1 := by
  interval_cases j <;>
    norm_num [tableDot, NORMALS_TABLE, dot_product, List.getD_cons_succ,
      List.getD_cons_zero]

lemma find_closest_normal_up : find_closest_normal (0, 0, 1) = 0 := by
  have hspec := find_closest_normal_spec (0, 0, 1)
  by_contra hne
  have hpos : 0 < find_closest_normal (0, 0, 1) := Nat.pos_of_ne_zero hne
  have h0 := hspec.2.2 0 hpos
  rw [normalize_vector_up] at h0
  have h1 : tableDot (0, 0, 1) 0 = 1 := by
    norm_num [tableDot, NORMALS_TABLE, dot_product]
  have h2 := tableDot_up_le_one (find_closest_normal (0, 0, 1)) hspec.1
  rw [h1] at h0
  linarith

lemma calculate_surface_normal_enclosed (voxels : Int → Int → Int → Bool)
    (x y z dx dy dz : Int)
    (hx1 : 1 ≤ x) (hx2 : x + 1 < dx) (hy1 : 1 ≤ y) (hy2 : y + 1 < dy)
    (hz1 : 1 ≤ z) (hz2 : z + 1 < dz)
    (hv1 : voxels (x + 1) y z = true) (hv2 : voxels (x - 1) y z = true)
    (hv3 : voxels x (y + 1) z = true) (hv4 : voxels x (y - 1) z = true)
    (hv5 : voxels x y (z + 1) = true) (hv6 : voxels x y (z - 1) = true) :
    calculate_surface_normal voxels x y z dx dy dz = (0, 0, 1) := by
  unfold calculate_surface_normal surfaceNeighbors
  simp only [List.foldl_cons, List.foldl_nil]
  have hv2' : voxels (x + -1) y z = true := hv2
  have hv4' : voxels x (y + -1) z = true := hv4
  have hv6' : voxels x y (z + -1) = true := hv6
  norm_num [hv1, hv2', hv3, hv4', hv5, hv6']
  have e1 : (x + 1 < 0 ∨ dx ≤ x + 1 ∨ y < 0 ∨ dy ≤ y ∨ z < 0 ∨ dz ≤ z)
      = False := eq_false (by omega)
  have e2 : (x < 1 ∨ dx + 1 ≤ x ∨ y < 0 ∨ dy ≤ y ∨ z < 0 ∨ dz ≤ z)
      = False := eq_false (by omega)
  have e3 : (x < 0 ∨ dx ≤ x ∨ y + 1 < 0 ∨ dy ≤ y + 1 ∨ z < 0 ∨ dz ≤ z)
      = False := eq_false (by omega)
  have e4 : (x < 0 ∨ dx ≤ x ∨ y < 1 ∨ dy + 1 ≤ y ∨ z < 0 ∨ dz ≤ z)
      = False := eq_false (by omega)
  have e5 : (x < 0 ∨ dx ≤ x ∨ y < 0 ∨ dy ≤ y ∨ z + 1 < 0 ∨ dz ≤ z + 1)
      = False := eq_false (by omega)
  have e6 : (x < 0 ∨ dx ≤ x ∨ y < 0 ∨ dy ≤ y ∨ z < 1 ∨ dz + 1 ≤ z)
      = False := eq_false (by omega)
  simp only [e1, e2, e3, e4, e5, e6, if_false]
  exact normalize_vector_zero

/-- C7: the fine-mode classifier.  `find_closest_normal` returns, for any
input, the index of the 36-entry table vector with maximum dot product against
the normalized input, ties broken by the lowest index (the returned index is
in range, no entry beats it, and every earlier entry is strictly worse); a
zero-length exposure sum normalizes to the default up vector; hence a fully
enclosed cell — all six neighbors in bounds and occupied, so
`calculate_surface_normal` sums no face vectors — is always assigned table
index 0, the up vector. -/
theorem fine_classifier_nearest
    (v : ℝ × ℝ × ℝ) (voxels : Int → Int → Int → Bool) (x y z dx dy dz : Int)
    (hx1 : 1 ≤ x) (hx2 : x + 1 < dx) (hy1 : 1 ≤ y) (hy2 : y + 1 < dy)
    (hz1 : 1 ≤ z) (hz2 : z + 1 < dz)
    (hv1 : voxels (x + 1) y z = true) (hv2 : voxels (x - 1) y z = true)
    (hv3 : voxels x (y + 1) z = true) (hv4 : voxels x (y - 1) z = true)
    (hv5 : voxels x y (z + 1) = true) (hv6 : voxels x y (z - 1) = true) :
    normalize_vector (0, 0, 0) = (0, 0, 1)
    ∧ find_closest_normal v < 36
    ∧ (∀ j, j < 36 → tableDot (normalize_vector v) j ≤
        tableDot (normalize_vector v) (find_closest_normal v))
    ∧ (∀ j, j < find_closest_normal v → tableDot (normalize_vector v) j <
        tableDot (normalize_vector v) (find_closest_normal v))
    ∧ find_closest_normal (calculate_surface_normal voxels x y z dx dy dz)
        = 0 := by
  have hspec := find_closest_normal_spec v
  refine ⟨normalize_vector_zero, hspec.1, hspec.2.1, hspec.2.2, ?_⟩
  rw [calculate_surface_normal_enclosed voxels x y z dx dy dz hx1 hx2 hy1 hy2
    hz1 hz2 hv1 hv2 hv3 hv4 hv5 hv6]
  exact find_closest_normal_up

/-- Witness for `fine_classifier_nearest`: the all-occupied 3×3×3 grid with
its center cell (1,1,1); the enclosed center is classified as up, index 0. -/
theorem fine_classifier_nearest_witness :
    find_closest_normal
      (calculate_surface_normal (fun _ _ _ => true) 1 1 1 3 3 3) = 0 := by
  have h := fine_classifier_nearest (1, 0, 0) (fun _ _ _ => true) 1 1 1 3 3 3
    (by decide) (by decide) (by decide) (by decide) (by decide) (by decide)
    rfl rfl rfl rfl rfl rfl
  exact h.2.2.2.2

end VxlGuide
